import Mathlib

/-!
Shallow embedding of `pkg/command/run.go` from docker-openshift-analizer:
the RUN-instruction analyzer (tokenizer on `&&`, classifier, the chmod /
chown / sudo-su rules, and the coordinator `Analyze` / `PostProcess`).

Go machine strings are modelled as Lean `String` (a list of characters);
the three Go regular expressions of run.go are modelled by executable
scanning functions that realize their leftmost-first matching semantics,
documented at each definition.
-/

/-- Modelled from the spec: the finding status enumeration {Pass, Fail}.
The constant `StatusFailed` is used by run.go; the constants themselves are
declared outside src/. -/
inductive Status where
  | StatusPassed
  | StatusFailed
deriving DecidableEq

/-- Modelled from the spec: the severity enumeration {Low, Medium, High,
Critical}. run.go uses `SeverityMedium` and `SeverityCritical`; the
constants themselves are declared outside src/. -/
inductive Severity where
  | SeverityLow
  | SeverityMedium
  | SeverityHigh
  | SeverityCritical
deriving DecidableEq

open Status Severity

/-- The finding record, with the fields run.go assigns: Name, Status,
Severity, Description. -/
structure Result where
  Name : String
  Status : Status
  Severity : Severity
  Description : String
deriving DecidableEq

/-- Modelled from the spec: `utils.Source` identifies the originating file;
its declaration is outside src/ and the core treats it as opaque. -/
structure Source where
  file : String
deriving DecidableEq

/-- Modelled from the spec: `Line` carries the source line number; its
declaration is outside src/ and the core treats it as opaque. -/
structure Line where
  number : Nat
deriving DecidableEq

/-- Modelled from the spec: `GenerateErrorLocation` renders a
human-readable "at file X, line Y" fragment; its definition is outside
src/. -/
def GenerateErrorLocation (source : Source) (line : Line) : String :=
  "at file " ++ source.file ++ ", line " ++ toString line.number

/-- Go regexp character class `\s`, i.e. `[\t\n\f\r ]`. -/
def isSpaceGo (c : Char) : Bool :=
  c == ' ' || c == '\t' || c == '\n' || c == '\x0C' || c == '\r'

/-- Go regexp character class `\w`, i.e. `[0-9A-Za-z_]`. -/
def isWordChar (c : Char) : Bool :=
  c.isAlphanum || c == '_'

/-- Head of the remaining text is a Go whitespace character (used to model
a mandatory `\s+` continuation). -/
def startsWithSpaceGo : List Char → Bool
  | [] => false
  | c :: _ => isSpaceGo c

/-- Modelled from the spec: `IsCommand` (declared outside src/, in the
command package) checks that the leading command name of the sub-command,
after skipping leading whitespace, equals the keyword as a whole word,
case-sensitively. -/
def IsCommand (s : String) (command : String) : Bool :=
  (s.data.dropWhile isSpaceGo).takeWhile (fun c => !(isSpaceGo c)) == command.data

/-- Model of strings.Split(value, "&&") on character lists: split at each
non-overlapping occurrence of `&&`, scanning left to right, keeping the
separator out and trimming nothing. -/
def splitAmp : List Char → List (List Char)
  | [] => [[]]
  | '&' :: '&' :: rest => [] :: splitAmp rest
  | c :: rest =>
    match splitAmp rest with
    | [] => [[c]]
    | h :: t => (c :: h) :: t

/-- Number of non-overlapping occurrences of `&&`, scanning left to right
(the `k` of the spec's `k+1` sub-command count). -/
def countAmpAmp : List Char → Nat
  | '&' :: '&' :: rest => countAmpAmp rest + 1
  | _ :: rest => countAmpAmp rest
  | [] => 0

/-- The Command Tokenizer: `strings.Split(node.Value, "&&")` of run.go. -/
def splitCommands (value : String) : List String :=
  (splitAmp value.data).map (fun l => String.mk l)

/-- Model of the run.go pattern chmod\s+(\d+)\s+(.*) under FindStringSubmatch:
returns the first capture (the digit run) of the leftmost match. A match
starts at an occurrence of the literal `chmod`, followed by at least one
whitespace, a maximal nonempty digit run, and at least one whitespace
(after which `(.*)` always succeeds); with Go's leftmost-first semantics
no other backtracking outcome is reachable, so scanning occurrences of the
literal left to right is exact. The attempt made right after one occurrence
of the literal is `chmodArgAt`. -/
def chmodArgAt (r : List Char) : Option (List Char) :=
  let ws1 := r.takeWhile isSpaceGo
  let r2 := r.drop ws1.length
  let ds := r2.takeWhile Char.isDigit
  let r3 := r2.drop ds.length
  if !ws1.isEmpty && !ds.isEmpty && startsWithSpaceGo r3 then some ds else none

def chmodPermArg : List Char → Option (List Char)
  | [] => none
  | c :: rest =>
    if (c :: rest).take 5 == "chmod".data then
      match chmodArgAt ((c :: rest).drop 5) with
      | some ds => some ds
      | none => chmodPermArg rest
    else chmodPermArg rest

/-- The second capture `(\$*\w+)` of the chown pattern, tried right after a
colon: a greedy run of `$` followed by a nonempty greedy run of word
characters; fails when the word run is empty. -/
def groupAfterColon (l : List Char) : Option String :=
  let ds := l.takeWhile (fun c => c == '$')
  let r := l.drop ds.length
  let ws := r.takeWhile isWordChar
  if ws.isEmpty then none else some (String.mk (ds ++ ws))

/-- Model of the run.go pattern (\$*\w+)*:(\$*\w+) under FindStringSubmatch,
restricted to what run.go reads from it (`match[len(match)-1]`, the second
capture): the leftmost match uses the first colon that is immediately
followed by `\$*\w+` with a nonempty word run, and the second capture is
that `$`-run plus word run. -/
def findChownGroup : List Char → Option String
  | [] => none
  | c :: rest =>
    if c == ':' then
      match groupAfterColon rest with
      | some g => some g
      | none => findChownGroup rest
    else findChownGroup rest

/-- One keyword alternative of the sudo/su pattern at the current
position: `sudo` or `su` followed by at least one whitespace. -/
def keywordThenSpace (l : List Char) : Bool :=
  (l.take 4 == "sudo".data && startsWithSpaceGo (l.drop 4)) ||
  (l.take 2 == "su".data && startsWithSpaceGo (l.drop 2))

/-- Scan for a position where `(\s+|^)(sudo|su)\s+` can match: the keyword
must sit at the start of the text or right after a whitespace character,
and be followed by a whitespace character. The boolean argument records
whether the current position is such a boundary. -/
def sudoSuScan : List Char → Bool → Bool
  | [], _ => false
  | c :: rest, atBoundary =>
    (atBoundary && keywordThenSpace (c :: rest)) || sudoSuScan rest (isSpaceGo c)

/-- Model of the run.go pattern (\s+|^)(sudo|su)\s+ matching
anywhere in the string (run.go only tests `len(match) > 0`). -/
def sudoSuMatches (s : String) : Bool :=
  sudoSuScan s.data true

/-- The Medium "Use of sudo/su command" finding built by
analyzeSudoAndSuCommand. -/
def sudoSuResult (s : String) (source : Source) (line : Line) : Result :=
  { Name := "Use of sudo/su command"
    Status := StatusFailed
    Severity := SeverityMedium
    Description := "sudo/su command used in '" ++ s ++ "' " ++
      GenerateErrorLocation source line ++
      " could cause an unexpected behavior. \n\t\tIn OpenShift, containers are run using arbitrarily assigned user ID and elevating privileges could lead \n\t\tto an unexpected behavior" }

/-- Function analyzeSudoAndSuCommand of run.go. -/
def analyzeSudoAndSuCommand (s : String) (source : Source) (line : Line) : Option Result :=
  if sudoSuMatches s then some (sudoSuResult s source line)
  else none

/-- The Medium "Owner set" finding built by analyzeChownCommand once a
group capture has been extracted and found non-compliant. -/
def chownOwnerSetResult (s : String) (source : Source) (line : Line) : Result :=
  { Name := "Owner set"
    Status := StatusFailed
    Severity := SeverityMedium
    Description := "owner set on " ++ s ++ " " ++
      GenerateErrorLocation source line ++
      " could cause an unexpected behavior. \n\t\t\tIn OpenShift the group ID must always be set to the root group (0)" }

/-- Model of strings.ToLower on the ASCII strings the chown pattern can
capture (Go lowercases Unicode-wide, but every capture consists of word
characters and dollar signs, on which ASCII lowercasing agrees). -/
def toLowerGo (s : String) : String :=
  String.mk (s.data.map Char.toLower)

/-- The comparison run.go performs on the extracted group capture:
strings.ToLower(group) != "root" && group != "0" guards the finding. -/
def chownGroupResult (s : String) (source : Source) (line : Line) (group : String) : Option Result :=
  if toLowerGo group ≠ "root" ∧ group ≠ "0" then some (chownOwnerSetResult s source line)
  else none

/-- Function analyzeChownCommand of run.go: extract the group capture with the
chown regular expression; silently report nothing when it finds no match. -/
def analyzeChownCommand (s : String) (source : Source) (line : Line) : Option Result :=
  match findChownGroup s.data with
  | none => none
  | some group => chownGroupResult s source line group

/-- The dynamically generated chmod remediation text of run.go: always the
`7` substitution proposal, plus the `6` alternative when the group digit
is not already 6. -/
def chmodProposal (a b c : Char) : String :=
  "Is it an executable file? Try updating permissions to " ++
    String.mk [a] ++ "7" ++ String.mk [c] ++
    (if b ≠ '6' then
      " otherwise set it to " ++ String.mk [a] ++ "6" ++ String.mk [c]
    else "")

/-- The Critical "Syntax error" finding of `analyzeChmodCommand`. -/
def chmodSyntaxErrorResult (source : Source) (line : Line) : Result :=
  { Name := "Syntax error"
    Status := StatusFailed
    Severity := SeverityCritical
    Description := "unable to fetch args of chmod command " ++
      GenerateErrorLocation source line ++ ". Is it correct?" }

/-- The Medium "Permission set" finding built by analyzeChmodCommand for a
three-digit permission argument a b c whose group digit b is not 7. -/
def chmodPermissionSetResult (s : String) (source : Source) (line : Line) (a b c : Char) : Result :=
  { Name := "Permission set"
    Status := StatusFailed
    Severity := SeverityMedium
    Description := "permission set on " ++ s ++ " " ++
      GenerateErrorLocation source line ++
      " could cause an unexpected behavior. " ++ chmodProposal a b c ++
      "\nExplanation - in Openshift, directories and files need to be read/writable by the root group and files that must be executed should have group execute permissions" }

/-- The decision taken by analyzeChmodCommand on the extracted digit run:
not exactly three digits gives the Critical syntax-error finding; three
digits give the Medium "Permission set" finding unless the middle (group)
digit is 7. -/
def chmodPermResult (s : String) (source : Source) (line : Line) (permission : List Char) : Option Result :=
  match permission with
  | [a, b, c] =>
    if b ≠ '7' then some (chmodPermissionSetResult s source line a b c)
    else none
  | _ => some (chmodSyntaxErrorResult source line)

/-- Function analyzeChmodCommand of run.go: when the chmod regular expression
finds no match the function returns nil (the `len(match) != 3` branch is
unreachable, since Go's FindStringSubmatch returns either nil or a slice
of length 1 + number of capture groups = 3). -/
def analyzeChmodCommand (s : String) (source : Source) (line : Line) : Option Result :=
  match chmodPermArg s.data with
  | none => none
  | some permission => chmodPermResult s source line permission

/-- Predicate isChmodCommand of run.go. -/
def isChmodCommand (s : String) : Bool := IsCommand s "chmod"

/-- Predicate isChownCommand of run.go. -/
def isChownCommand (s : String) : Bool := IsCommand s "chown"

/-- Predicate isSudoOrSuCommand of run.go. -/
def isSudoOrSuCommand (s : String) : Bool := IsCommand s "sudo" || IsCommand s "su"

/-- The per-sub-command dispatch of `Run.Analyze`: the if / else-if chain
over the three classifiers. -/
def evalSubCommand (source : Source) (line : Line) (command : String) : Option Result :=
  if isChmodCommand command then analyzeChmodCommand command source line
  else if isChownCommand command then analyzeChownCommand command source line
  else if isSudoOrSuCommand command then analyzeSudoAndSuCommand command source line
  else none

/-- One iteration of the collection loop of `Run.Analyze`: append the
evaluated result when it is non-nil. -/
def collectStep (source : Source) (line : Line) (results : List Result) (command : String) : List Result :=
  match evalSubCommand source line command with
  | some r => results ++ [r]
  | none => results

/-- The loop body of `Run.Analyze`: split on `&&`, evaluate each
sub-command in order, append every non-nil result. -/
def runResults (value : String) (source : Source) (line : Line) : List Result :=
  (splitCommands value).foldl (collectStep source line) []

/-- Method Run.Analyze including its context plumbing: the context is modelled
by its value at the private key `runResultKey` (`none` = key absent), and
`context.WithValue` stores the fresh result list. -/
def Analyze (ctx : Option (List Result)) (value : String) (source : Source) (line : Line) : Option (List Result) :=
  some (runResults value source line)

/-- Method Run.PostProcess of run.go: read the stored result list back from the
context, nil (here `[]`) when the key is absent. -/
def PostProcess (ctx : Option (List Result)) : List Result :=
  match ctx with
  | none => []
  | some results => results

/-- Pattern check at the head of the text (auxiliary for substring
occurrence). -/
def leadsWith : List Char → List Char → Bool
  | [], _ => true
  | _ :: _, [] => false
  | p :: ps, c :: cs => p == c && leadsWith ps cs

/-- Executable substring occurrence: `pat` occurs contiguously somewhere
in the text. -/
def occursInB (pat : List Char) : List Char → Bool
  | [] => leadsWith pat []
  | c :: cs => leadsWith pat (c :: cs) || occursInB pat cs

/-- Modelled from the spec: the group half of the *last* matching
owner:group pair of the command (the spec's "last match wins" reading),
for comparison against the source behavior. Collects the second capture of
every colon that the chown pattern can match and keeps the last. -/
def allChownGroups : List Char → List String
  | [] => []
  | c :: rest =>
    if c == ':' then
      match groupAfterColon rest with
      | some g => g :: allChownGroups rest
      | none => allChownGroups rest
    else allChownGroups rest

/-- Modelled from the spec: the last matching pair's group half. -/
def lastChownGroup (l : List Char) : Option String :=
  (allChownGroups l).getLast?

/-- Concrete location used by witnesses and counterexamples. -/
def exSource : Source := { file := "Dockerfile" }

/-- Concrete line used by witnesses and counterexamples. -/
def exLine : Line := { number := 7 }

/-- Joining the split sub-commands back with the separator, the inverse
direction of the tokenizer (used to state that splitting is purely lexical
and trims nothing). -/
def joinAmp : List (List Char) → List Char
  | [] => []
  | [x] => x
  | x :: y :: t => x ++ '&' :: '&' :: joinAmp (y :: t)

/-- The chmod remediation alternative proposing group digit 7 while keeping
the owner and other digits. -/
def sevenAlt (a c : Char) : List Char :=
  ("Is it an executable file? Try updating permissions to " ++
    String.mk [a] ++ "7" ++ String.mk [c]).data

/-- The chmod remediation alternative proposing group digit 6 while keeping
the owner and other digits. -/
def sixAlt (a c : Char) : List Char :=
  (" otherwise set it to " ++ String.mk [a] ++ "6" ++ String.mk [c]).data

/-- Placeholder finding used only to read the head of a concrete result
list; its status is Pass so that it cannot fake a Fail witness. -/
def dummyResult : Result :=
  { Name := "", Status := StatusPassed, Severity := SeverityLow, Description := "" }

/-! Helper lemmas. -/

theorem splitAmp_ne_nil : ∀ l : List Char, splitAmp l ≠ [] := by
  intro l
  induction l using splitAmp.induct with
  | case1 => simp [splitAmp]
  | case2 rest ih => simp [splitAmp]
  | case3 c rest hne hnil ih => exact absurd hnil ih
  | case4 c rest hne h t heq ih =>
    rw [splitAmp.eq_3 c rest hne, heq]
    simp

theorem joinAmp_cons_cons (c : Char) (h : List Char) (t : List (List Char)) :
    joinAmp ((c :: h) :: t) = c :: joinAmp (h :: t) := by
  cases t with
  | nil => simp [joinAmp]
  | cons y t2 => simp [joinAmp]

theorem splitAmp_spec : ∀ l : List Char,
    (splitAmp l).length = countAmpAmp l + 1 ∧ joinAmp (splitAmp l) = l := by
  intro l
  induction l using splitAmp.induct with
  | case1 => simp [splitAmp, countAmpAmp, joinAmp]
  | case2 rest ih =>
    obtain ⟨ihl, ihj⟩ := ih
    constructor
    · simp [splitAmp, countAmpAmp, ihl]
    · rw [splitAmp.eq_2]
      cases hsp : splitAmp rest with
      | nil => exact absurd hsp (splitAmp_ne_nil rest)
      | cons h t =>
        rw [hsp] at ihj
        simp [joinAmp, ihj]
  | case3 c rest hne hnil ih => exact absurd hnil (splitAmp_ne_nil rest)
  | case4 c rest hne h t heq ih =>
    obtain ⟨ihl, ihj⟩ := ih
    rw [heq] at ihl ihj
    have hcount : countAmpAmp (c :: rest) = countAmpAmp rest := by
      rw [countAmpAmp.eq_2 c rest hne]
    rw [splitAmp.eq_3 c rest hne, heq]
    constructor
    · simpa [hcount] using ihl
    · rw [joinAmp_cons_cons, ihj]

theorem foldl_collectStep (source : Source) (line : Line) :
    ∀ (xs : List String) (acc : List Result),
      xs.foldl (collectStep source line) acc = acc ++ xs.filterMap (evalSubCommand source line) := by
  intro xs
  induction xs with
  | nil => intro acc; simp
  | cons x t ih =>
    intro acc
    simp only [List.foldl_cons, List.filterMap_cons, collectStep]
    cases hfx : evalSubCommand source line x with
    | none => exact ih acc
    | some b => exact (ih (acc ++ [b])).trans (by simp)

theorem runResults_eq_filterMap (value : String) (source : Source) (line : Line) :
    runResults value source line = (splitCommands value).filterMap (evalSubCommand source line) := by
  unfold runResults
  have h := foldl_collectStep source line (splitCommands value) []
  simpa using h

theorem chmodArgAt_digits {r ds : List Char} (h : chmodArgAt r = some ds) :
    ∀ x ∈ ds, x.isDigit = true := by
  simp only [chmodArgAt] at h
  split at h
  · cases h
    intro x hx
    exact List.mem_takeWhile_imp hx
  · exact absurd h (by simp)

theorem chmodPermArg_digits : ∀ (l ds : List Char), chmodPermArg l = some ds →
    ∀ x ∈ ds, x.isDigit = true := by
  intro l
  induction l with
  | nil => intro ds h; simp [chmodPermArg] at h
  | cons c rest ih =>
    intro ds h
    rw [chmodPermArg] at h
    split at h
    · split at h
      · cases h
        next harg => exact chmodArgAt_digits harg
      · exact ih ds h
    · exact ih ds h

theorem leadsWith_iff : ∀ (p l : List Char), leadsWith p l = true ↔ ∃ t, l = p ++ t := by
  intro p
  induction p with
  | nil => intro l; simp [leadsWith]
  | cons a ps ih =>
    intro l
    cases l with
    | nil => simp [leadsWith]
    | cons c cs =>
      simp only [leadsWith, Bool.and_eq_true, beq_iff_eq, ih cs]
      constructor
      · rintro ⟨rfl, t, rfl⟩
        exact ⟨t, rfl⟩
      · rintro ⟨t, ht⟩
        rw [List.cons_append] at ht
        cases ht
        exact ⟨rfl, t, rfl⟩

theorem occursInB_iff : ∀ (pat l : List Char), occursInB pat l = true ↔ ∃ u v, l = u ++ pat ++ v := by
  intro pat l
  induction l with
  | nil =>
    rw [occursInB, leadsWith_iff]
    constructor
    · rintro ⟨t, ht⟩
      exact ⟨[], t, by simpa using ht⟩
    · rintro ⟨u, v, huv⟩
      rw [eq_comm, List.append_eq_nil, List.append_eq_nil] at huv
      obtain ⟨⟨rfl, rfl⟩, rfl⟩ := huv
      exact ⟨[], rfl⟩
  | cons c cs ih =>
    rw [occursInB]
    simp only [Bool.or_eq_true]
    rw [leadsWith_iff, ih]
    constructor
    · rintro (⟨t, ht⟩ | ⟨u, v, rfl⟩)
      · exact ⟨[], t, by simpa using ht⟩
      · exact ⟨c :: u, v, by simp⟩
    · rintro ⟨u, v, huv⟩
      cases u with
      | nil => exact Or.inl ⟨v, by simpa using huv⟩
      | cons x us =>
        rw [List.cons_append, List.cons_append] at huv
        injection huv with h1 h2
        exact Or.inr ⟨us, v, h2⟩

theorem occursInB_of_eq {pat l u v : List Char} (h : l = u ++ pat ++ v) :
    occursInB pat l = true :=
  (occursInB_iff pat l).2 ⟨u, v, h⟩

theorem mem_of_occursInB {pat l : List Char} (h : occursInB pat l = true)
    {x : Char} (hx : x ∈ pat) : x ∈ l := by
  obtain ⟨u, v, rfl⟩ := (occursInB_iff pat l).1 h
  simp [hx]

theorem analyzeChmod_none {s : String} (source : Source) (line : Line)
    (h : chmodPermArg s.data = none) : analyzeChmodCommand s source line = none := by
  unfold analyzeChmodCommand
  rw [h]

theorem analyzeChmod_some {s : String} (source : Source) (line : Line) {perm : List Char}
    (h : chmodPermArg s.data = some perm) :
    analyzeChmodCommand s source line = chmodPermResult s source line perm := by
  unfold analyzeChmodCommand
  rw [h]

theorem analyzeChown_none {s : String} (source : Source) (line : Line)
    (h : findChownGroup s.data = none) : analyzeChownCommand s source line = none := by
  unfold analyzeChownCommand
  rw [h]

theorem analyzeChown_some {s : String} (source : Source) (line : Line) {g : String}
    (h : findChownGroup s.data = some g) :
    analyzeChownCommand s source line = chownGroupResult s source line g := by
  unfold analyzeChownCommand
  rw [h]

theorem sudoSu_some_failed {s : String} {source : Source} {line : Line} {r : Result}
    (h : analyzeSudoAndSuCommand s source line = some r) : r.Status = StatusFailed := by
  unfold analyzeSudoAndSuCommand at h
  split at h
  · cases h
    rfl
  · exact Option.noConfusion h

theorem chownGroupResult_some_failed {s : String} {source : Source} {line : Line}
    {g : String} {r : Result} (h : chownGroupResult s source line g = some r) :
    r.Status = StatusFailed := by
  unfold chownGroupResult at h
  split at h
  · cases h
    rfl
  · exact Option.noConfusion h

theorem chown_some_failed {s : String} {source : Source} {line : Line} {r : Result}
    (h : analyzeChownCommand s source line = some r) : r.Status = StatusFailed := by
  unfold analyzeChownCommand at h
  split at h
  · exact Option.noConfusion h
  · exact chownGroupResult_some_failed h

theorem chmodPermResult_some_failed {s : String} {source : Source} {line : Line}
    {perm : List Char} {r : Result} (h : chmodPermResult s source line perm = some r) :
    r.Status = StatusFailed := by
  unfold chmodPermResult at h
  split at h
  · split at h
    · cases h
      rfl
    · exact Option.noConfusion h
  · cases h
    rfl

theorem chmod_some_failed {s : String} {source : Source} {line : Line} {r : Result}
    (h : analyzeChmodCommand s source line = some r) : r.Status = StatusFailed := by
  unfold analyzeChmodCommand at h
  split at h
  · exact Option.noConfusion h
  · exact chmodPermResult_some_failed h

theorem chownGroupResult_isSome_eq (s1 s2 : String) (src1 src2 : Source) (ln1 ln2 : Line)
    (g : String) :
    (chownGroupResult s1 src1 ln1 g).isSome = (chownGroupResult s2 src2 ln2 g).isSome := by
  by_cases hg : toLowerGo g ≠ "root" ∧ g ≠ "0"
  · simp [chownGroupResult, hg]
  · simp [chownGroupResult, hg]

theorem data_mk (l : List Char) : (String.mk l).data = l := rfl

theorem data_empty : ("" : String).data = [] := rfl

theorem data_seven : ("7" : String).data = ['7'] := rfl

theorem data_six : ("6" : String).data = ['6'] := rfl

theorem chmodProposal_data (a b c : Char) :
    (chmodProposal a b c).data = sevenAlt a c ++ (if b ≠ '6' then sixAlt a c else []) := by
  by_cases hb : b ≠ '6'
  · simp [chmodProposal, sevenAlt, sixAlt, hb, String.data_append, data_mk]
  · simp [chmodProposal, sevenAlt, sixAlt, hb, String.data_append, data_mk, data_empty]

theorem sevenAlt_eq (a c : Char) :
    sevenAlt a c =
      "Is it an executable file? Try updating permissions to ".data ++ [a] ++ ['7'] ++ [c] := by
  simp [sevenAlt, String.data_append, data_mk, data_seven]

theorem sixAlt_eq (a c : Char) :
    sixAlt a c = " otherwise set it to ".data ++ [a] ++ ['6'] ++ [c] := by
  simp [sixAlt, String.data_append, data_mk, data_six]

theorem w_mem_sixAlt (a c : Char) : 'w' ∈ sixAlt a c := by
  rw [sixAlt_eq]
  exact List.mem_append_left _ (List.mem_append_left _ (List.mem_append_left _ (by decide)))

theorem sixAlt_not_in_sevenAlt {a c : Char} (ha : a.isDigit = true) (hc : c.isDigit = true) :
    occursInB (sixAlt a c) (sevenAlt a c) = false := by
  by_contra hocc
  rw [Bool.not_eq_false] at hocc
  have hw : 'w' ∈ sevenAlt a c := mem_of_occursInB hocc (w_mem_sixAlt a c)
  rw [sevenAlt_eq] at hw
  simp only [List.mem_append, List.mem_singleton] at hw
  rcases hw with ((h1 | h2) | h3) | h4
  · exact absurd h1 (by decide)
  · rw [← h2] at ha
    exact absurd ha (by decide)
  · exact absurd h3 (by decide)
  · rw [← h4] at hc
    exact absurd hc (by decide)

/-! Claims. -/

/-- C1 counterexample: the sub-command "chmod" is classified
PermissionChange, yet the Permission Rule emits no Finding at all, because
run.go returns nil when the chmod regular expression finds no match — it
does not emit the claimed Critical "Syntax error" Finding. -/
theorem c1_counterexample :
    isChmodCommand "chmod" = true ∧
    analyzeChmodCommand "chmod" exSource exLine = none := by
  exact ⟨rfl, rfl⟩

/-- C1 (amended): for a PermissionChange sub-command, when the chmod
regular expression finds no match (in particular when no numeric argument
is extractable) the rule produces no Finding; when it matches but the
extracted numeric argument is not exactly three digits long, the rule
emits exactly one Finding with Title "Syntax error", Status Fail and
Severity Critical. -/
theorem c1_claim : ∀ (s : String) (src : Source) (ln : Line),
    isChmodCommand s = true →
    (chmodPermArg s.data = none → analyzeChmodCommand s src ln = none) ∧
    (∀ ds, chmodPermArg s.data = some ds → ds.length ≠ 3 →
      analyzeChmodCommand s src ln = some (chmodSyntaxErrorResult src ln) ∧
      (chmodSyntaxErrorResult src ln).Name = "Syntax error" ∧
      (chmodSyntaxErrorResult src ln).Status = StatusFailed ∧
      (chmodSyntaxErrorResult src ln).Severity = SeverityCritical) := by
  intro s src ln hclass
  refine ⟨fun h => analyzeChmod_none src ln h, ?_⟩
  intro ds hds hlen
  rw [analyzeChmod_some src ln hds]
  refine ⟨?_, rfl, rfl, rfl⟩
  unfold chmodPermResult
  rcases ds with _ | ⟨a, _ | ⟨b, _ | ⟨c, _ | ⟨d, t⟩⟩⟩⟩
  · rfl
  · rfl
  · rfl
  · exact absurd rfl hlen
  · rfl

/-- C1 witness: "chmod 0777 /app" has a four-digit numeric argument and
receives exactly one Critical "Syntax error" Finding. -/
theorem c1_witness :
    analyzeChmodCommand "chmod 0777 /app" exSource exLine
        = some (chmodSyntaxErrorResult exSource exLine) ∧
    (chmodSyntaxErrorResult exSource exLine).Name = "Syntax error" ∧
    (chmodSyntaxErrorResult exSource exLine).Status = StatusFailed ∧
    (chmodSyntaxErrorResult exSource exLine).Severity = SeverityCritical :=
  (c1_claim "chmod 0777 /app" exSource exLine rfl).2 ['0', '7', '7', '7'] rfl (by decide)

/-- C2 counterexample: two OwnershipChange sub-commands whose last
owner:group pair has the same group half "node", on which the rule decides
differently — run.go reads the second capture of the leftmost (first)
match, not the last pair, so the decision is not a function of the last
pair's group. -/
theorem c2_counterexample :
    isChownCommand "chown a:root b:node /app" = true ∧
    isChownCommand "chown a:node b:node /app" = true ∧
    lastChownGroup "chown a:root b:node /app".data = some "node" ∧
    lastChownGroup "chown a:node b:node /app".data = some "node" ∧
    analyzeChownCommand "chown a:root b:node /app" exSource exLine = none ∧
    (analyzeChownCommand "chown a:node b:node /app" exSource exLine).isSome = true := by
  decide

/-- C2 (amended): the Ownership Rule takes the group half of the first
matching owner:group pair in the command (the leftmost regex match), and
the finding decision is a function of that first pair's group: any two
classified sub-commands with the same extracted first-pair group produce
the same decision. -/
theorem c2_claim : ∀ (s1 s2 : String) (src1 src2 : Source) (ln1 ln2 : Line),
    isChownCommand s1 = true → isChownCommand s2 = true →
    findChownGroup s1.data = findChownGroup s2.data →
    (analyzeChownCommand s1 src1 ln1).isSome = (analyzeChownCommand s2 src2 ln2).isSome := by
  intro s1 s2 src1 src2 ln1 ln2 h1 h2 hg
  unfold analyzeChownCommand
  rw [hg]
  cases hfg : findChownGroup s2.data with
  | none => rfl
  | some g => exact chownGroupResult_isSome_eq s1 s2 src1 src2 ln1 ln2 g

/-- C2 witness: two different chown commands with the same first-pair
group "node" receive the same decision. -/
theorem c2_witness :
    (analyzeChownCommand "chown node:node /app" exSource exLine).isSome
      = (analyzeChownCommand "chown -h abc:node d" exSource exLine).isSome :=
  c2_claim "chown node:node /app" "chown -h abc:node d" exSource exSource exLine exLine
    rfl rfl rfl

/-- C3 counterexample: the sub-command "su" is classified
PrivilegeEscalation (leading whole word su), yet the rule emits no
Finding, because the run.go pattern requires whitespace after the keyword;
so the rule is not unconditional on this category. -/
theorem c3_counterexample :
    isSudoOrSuCommand "su" = true ∧
    analyzeSudoAndSuCommand "su" exSource exLine = none := by
  exact ⟨rfl, rfl⟩

/-- C3 (amended): for a PrivilegeEscalation sub-command the rule emits
exactly one Finding with Title "Use of sudo/su command", Status Fail and
Severity Medium when its pattern (sudo or su at the start or after
whitespace, followed by whitespace) matches, and no Finding when the
pattern does not match (e.g. a bare trailing keyword). -/
theorem c3_claim : ∀ (s : String) (src : Source) (ln : Line),
    isSudoOrSuCommand s = true →
    (sudoSuMatches s = true →
      ∃ r, analyzeSudoAndSuCommand s src ln = some r ∧
        r.Name = "Use of sudo/su command" ∧ r.Status = StatusFailed ∧
        r.Severity = SeverityMedium) ∧
    (sudoSuMatches s = false → analyzeSudoAndSuCommand s src ln = none) := by
  intro s src ln hclass
  constructor
  · intro hm
    exact ⟨sudoSuResult s src ln, by simp [analyzeSudoAndSuCommand, hm], rfl, rfl, rfl⟩
  · intro hm
    simp [analyzeSudoAndSuCommand, hm]

/-- C3 witness: "sudo rm /x" receives exactly one Medium "Use of sudo/su
command" Finding. -/
theorem c3_witness :
    ∃ r, analyzeSudoAndSuCommand "sudo rm /x" exSource exLine = some r ∧
      r.Name = "Use of sudo/su command" ∧ r.Status = StatusFailed ∧
      r.Severity = SeverityMedium :=
  (c3_claim "sudo rm /x" exSource exLine rfl).1 rfl

/-- C4: for a PermissionChange sub-command with an extracted three-digit
numeric argument, a group (middle) digit of 7 produces no Finding, and any
other group digit produces exactly one Finding with Title "Permission
set", Status Fail and Severity Medium. -/
theorem c4_claim : ∀ (s : String) (src : Source) (ln : Line) (a b c : Char),
    isChmodCommand s = true →
    chmodPermArg s.data = some [a, b, c] →
    (b = '7' → analyzeChmodCommand s src ln = none) ∧
    (b ≠ '7' → ∃ r, analyzeChmodCommand s src ln = some r ∧
      r.Name = "Permission set" ∧ r.Status = StatusFailed ∧
      r.Severity = SeverityMedium) := by
  intro s src ln a b c hclass hperm
  rw [analyzeChmod_some src ln hperm]
  constructor
  · intro hb
    subst hb
    simp [chmodPermResult]
  · intro hb
    exact ⟨chmodPermissionSetResult s src ln a b c, by simp [chmodPermResult, hb], rfl, rfl, rfl⟩

/-- C4 witness: "chmod 770 /app" (group digit 7) yields no Finding, and
"chmod 664 /app" (group digit 6) yields exactly one Medium "Permission
set" Finding. -/
theorem c4_witness :
    analyzeChmodCommand "chmod 770 /app" exSource exLine = none ∧
    ∃ r, analyzeChmodCommand "chmod 664 /app" exSource exLine = some r ∧
      r.Name = "Permission set" ∧ r.Status = StatusFailed ∧
      r.Severity = SeverityMedium :=
  ⟨(c4_claim "chmod 770 /app" exSource exLine '7' '7' '0' rfl rfl).1 rfl,
   (c4_claim "chmod 664 /app" exSource exLine '6' '6' '4' rfl rfl).2 (by decide)⟩

/-- C5: for a three-digit chmod argument a b c with group digit b not 7,
the emitted finding's description contains the dynamically generated
remediation text; that text always contains the proposal substituting 7
for the group digit (owner and other digits kept), and it contains the
additional proposal substituting 6 if and only if b is also not 6. -/
theorem c5_claim : ∀ (s : String) (src : Source) (ln : Line) (a b c : Char),
    isChmodCommand s = true →
    chmodPermArg s.data = some [a, b, c] →
    b ≠ '7' →
    ∃ r, analyzeChmodCommand s src ln = some r ∧
      occursInB (chmodProposal a b c).data r.Description.data = true ∧
      occursInB (sevenAlt a c) (chmodProposal a b c).data = true ∧
      (occursInB (sixAlt a c) (chmodProposal a b c).data = true ↔ b ≠ '6') := by
  intro s src ln a b c hclass hperm hb
  have ha : a.isDigit = true := chmodPermArg_digits s.data [a, b, c] hperm a (by simp)
  have hcd : c.isDigit = true := chmodPermArg_digits s.data [a, b, c] hperm c (by simp)
  refine ⟨chmodPermissionSetResult s src ln a b c, ?_, ?_, ?_, ?_⟩
  · rw [analyzeChmod_some src ln hperm]
    simp [chmodPermResult, hb]
  · refine occursInB_of_eq
      (u := ("permission set on " ++ s ++ " " ++ GenerateErrorLocation src ln ++
        " could cause an unexpected behavior. ").data)
      (v := ("\nExplanation - in Openshift, directories and files need to be read/writable by the root group and files that must be executed should have group execute permissions" : String).data) ?_
    simp [chmodPermissionSetResult, String.data_append]
  · refine occursInB_of_eq (u := []) (v := if b ≠ '6' then sixAlt a c else []) ?_
    rw [chmodProposal_data]
    simp
  · constructor
    · intro hocc hbeq
      rw [chmodProposal_data, if_neg (by simp [hbeq]), List.append_nil] at hocc
      rw [sixAlt_not_in_sevenAlt ha hcd] at hocc
      exact Bool.noConfusion hocc
    · intro hb6
      refine occursInB_of_eq (u := sevenAlt a c) (v := []) ?_
      rw [chmodProposal_data, if_pos hb6]
      simp

/-- C5 witness: for "chmod 664 /app" the finding's description contains
the remediation text, the text proposes 674, and it does not contain the
6-alternative since the group digit already is 6. -/
theorem c5_witness :
    ∃ r, analyzeChmodCommand "chmod 664 /app" exSource exLine = some r ∧
      occursInB (chmodProposal '6' '6' '4').data r.Description.data = true ∧
      occursInB (sevenAlt '6' '4') (chmodProposal '6' '6' '4').data = true ∧
      (occursInB (sixAlt '6' '4') (chmodProposal '6' '6' '4').data = true ↔ ('6' : Char) ≠ '6') :=
  c5_claim "chmod 664 /app" exSource exLine '6' '6' '4' rfl rfl (by decide)

/-- C6: for an OwnershipChange sub-command, no owner:group pair means no
Finding; with an extracted group value, exactly one Medium "Owner set"
Fail Finding is emitted if and only if the group is neither the word
"root" compared case-insensitively nor the exact literal "0". -/
theorem c6_claim : ∀ (s : String) (src : Source) (ln : Line),
    isChownCommand s = true →
    (findChownGroup s.data = none → analyzeChownCommand s src ln = none) ∧
    (∀ g, findChownGroup s.data = some g →
      (toLowerGo g ≠ "root" ∧ g ≠ "0" →
        ∃ r, analyzeChownCommand s src ln = some r ∧
          r.Name = "Owner set" ∧ r.Status = StatusFailed ∧
          r.Severity = SeverityMedium) ∧
      (¬(toLowerGo g ≠ "root" ∧ g ≠ "0") → analyzeChownCommand s src ln = none)) := by
  intro s src ln hclass
  refine ⟨fun h => analyzeChown_none src ln h, ?_⟩
  intro g hg
  constructor
  · intro hcond
    exact ⟨chownOwnerSetResult s src ln,
      by rw [analyzeChown_some src ln hg]; simp [chownGroupResult, hcond], rfl, rfl, rfl⟩
  · intro hcond
    rw [analyzeChown_some src ln hg]
    simp [chownGroupResult, hcond]

/-- C6 witness: "chown node:node /app" yields exactly one Medium "Owner
set" Finding; "chown -R root:root /app" (group "root") and "chown 1001
/deployments/run-java.sh" (no colon pair) yield none. -/
theorem c6_witness :
    (∃ r, analyzeChownCommand "chown node:node /app" exSource exLine = some r ∧
      r.Name = "Owner set" ∧ r.Status = StatusFailed ∧ r.Severity = SeverityMedium) ∧
    analyzeChownCommand "chown -R root:root /app" exSource exLine = none ∧
    analyzeChownCommand "chown 1001 /deployments/run-java.sh" exSource exLine = none :=
  ⟨((c6_claim "chown node:node /app" exSource exLine rfl).2 "node" rfl).1 (by decide),
   ((c6_claim "chown -R root:root /app" exSource exLine rfl).2 "root" rfl).2 (by decide),
   (c6_claim "chown 1001 /deployments/run-java.sh" exSource exLine rfl).1 rfl⟩

/-- C7: the Tokenizer splits purely lexically on the literal substring &&
with no trimming (joining the parts back with the separator restores the
original value), yields k+1 sub-commands for k occurrences, never yields
an empty list, and with zero occurrences yields exactly the whole original
value. -/
theorem c7_claim : ∀ v : String,
    (splitCommands v).length = countAmpAmp v.data + 1 ∧
    joinAmp (splitAmp v.data) = v.data ∧
    splitCommands v ≠ [] ∧
    (countAmpAmp v.data = 0 → splitCommands v = [v]) := by
  intro v
  obtain ⟨hlen, hjoin⟩ := splitAmp_spec v.data
  refine ⟨?_, hjoin, ?_, ?_⟩
  · simp only [splitCommands, List.length_map]
    exact hlen
  · intro hmap
    exact splitAmp_ne_nil v.data (List.map_eq_nil_iff.mp hmap)
  · intro hzero
    rw [hzero] at hlen
    cases hsp : splitAmp v.data with
    | nil => exact absurd hsp (splitAmp_ne_nil v.data)
    | cons h t =>
      rw [hsp] at hlen hjoin
      cases t with
      | cons y t2 => simp at hlen
      | nil =>
        simp only [joinAmp] at hjoin
        have hsc : splitCommands v = [String.mk h] := by simp [splitCommands, hsp]
        rw [hsc, hjoin]

/-- C7 witness: a value with no && occurrence yields exactly one
sub-command equal to the whole value. -/
theorem c7_witness : splitCommands "chmod 755 /app" = ["chmod 755 /app"] :=
  (c7_claim "chmod 755 /app").2.2.2 rfl

/-- C8: the Coordinator's result is the in-order filterMap of the
per-sub-command rule evaluation over the tokenized sub-commands (at most
one Finding per sub-command, order preserved, zero for compliant or
unmatched sub-commands), so its length never exceeds the number of
sub-commands. -/
theorem c8_claim : ∀ (v : String) (src : Source) (ln : Line),
    runResults v src ln = (splitCommands v).filterMap (evalSubCommand src ln) ∧
    (runResults v src ln).length ≤ (splitCommands v).length := by
  intro v src ln
  refine ⟨runResults_eq_filterMap v src ln, ?_⟩
  rw [runResults_eq_filterMap v src ln]
  exact List.length_filterMap_le _ _

/-- C9: evaluation is deterministic and free of hidden state: the stored
result is independent of the incoming context, reading it back gives the
pure function of the arguments, and re-running Analyze on its own output
context changes nothing. -/
theorem c9_claim : ∀ (ctx1 ctx2 : Option (List Result)) (v : String) (src : Source) (ln : Line),
    Analyze ctx1 v src ln = Analyze ctx2 v src ln ∧
    PostProcess (Analyze ctx1 v src ln) = runResults v src ln ∧
    Analyze (Analyze ctx1 v src ln) v src ln = Analyze ctx1 v src ln := by
  intro ctx1 ctx2 v src ln
  exact ⟨rfl, rfl, rfl⟩

/-- C10: every Finding any rule ever produces has Status Fail; compliant
inputs yield no Finding rather than a Pass Finding. -/
theorem c10_claim : ∀ (v : String) (src : Source) (ln : Line) (r : Result),
    r ∈ runResults v src ln → r.Status = StatusFailed := by
  intro v src ln r hr
  rw [runResults_eq_filterMap, List.mem_filterMap] at hr
  obtain ⟨cmd, _, hcmd⟩ := hr
  unfold evalSubCommand at hcmd
  split at hcmd
  · exact chmod_some_failed hcmd
  · split at hcmd
    · exact chown_some_failed hcmd
    · split at hcmd
      · exact sudoSu_some_failed hcmd
      · exact Option.noConfusion hcmd

set_option maxRecDepth 4096 in
/-- C10 witness: the Finding produced for "sudo yum install -y gcc" has
Status Fail. -/
theorem c10_witness :
    ((runResults "sudo yum install -y gcc" exSource exLine).headD dummyResult).Status
      = StatusFailed :=
  c10_claim "sudo yum install -y gcc" exSource exLine _ (by decide)
